import Mathlib

/-
Verification development for the jobmail-processor repository.

The TypeScript core is shallowly embedded: pure computations become Lean
functions over Nat, Int, String and List; external collaborators (the
fetch network call, the JSON parser of the platform, the xpath engine,
the tiktoken tokenizer) are passed in as explicit oracle parameters, so
every repository function stays a total, executable Lean definition.
-/

namespace JobMail

/-! ## Redirect resolver (src/redirectFollower.ts) -/

/-- Model of the platform fetch response: after redirects were followed
transparently, `url` is the final url of the chain and `status` the HTTP
status code.  The source never reads any other field. -/
structure FetchResponse where
  url : String
  status : Nat
deriving Repr, DecidableEq

/-- Model of the `ok` flag of a platform fetch response: status in [200, 300).
The source code never consults it. -/
def responseOk (r : FetchResponse) : Bool :=
  200 ≤ r.status && r.status < 300

/-- Mirrors the exported `RedirectResult` interface. -/
structure RedirectResult where
  finalUrl : String
  success : Bool
  error : Option String := none
  redirectChain : Option (List String) := none
deriving Repr, DecidableEq

/-- Embedding of `followRedirects` (redirectFollower.ts, lines 20-66).
The network probe is an oracle: `Except.error e` models the fetch promise
rejecting (network failure, or the 10 s AbortController timeout firing),
with `e` the error message; `Except.ok resp` models the probe completing
with a response.  On completion the source returns success with
`response.url`; the HTTP status is never inspected.  On rejection the
catch branch returns failure with the original url and the message. -/
def followRedirects (fetchOutcome : Except String FetchResponse)
    (url : String) (debugMode : Bool) : RedirectResult :=
  match fetchOutcome with
  | Except.ok response =>
      { finalUrl := response.url
        success := true
        error := none
        redirectChain := if debugMode then some [url, response.url] else none }
  | Except.error e =>
      { finalUrl := url
        success := false
        error := some e
        redirectChain := none }

/-- Consecutive windows of size `k`, mirroring the loop
`for (let i = 0; i < urls.length; i += maxConcurrent)` together with
`urls.slice(i, i + maxConcurrent)` (redirectFollower.ts, lines 79-87).
With `k = 0` the source loop would never terminate; the embedding returns
`[]` in that out-of-domain case and every theorem assumes `0 < k`. -/
def windows (k : Nat) : List α → List (List α)
  | [] => []
  | x :: xs =>
    if k = 0 then []
    else (x :: xs).take k :: windows k ((x :: xs).drop k)
termination_by xs => xs.length
decreasing_by
  simp only [List.length_drop, List.length_cons]
  omega

/-- One `results.set(url, value)` step of the JS `Map`: overwrite the value
in place when the key is present, append otherwise. -/
def mapSet (m : List (String × RedirectResult)) (key : String)
    (val : RedirectResult) : List (String × RedirectResult) :=
  if m.any (fun p => p.1 == key) then
    m.map (fun p => if p.1 == key then (key, val) else p)
  else m ++ [(key, val)]

/-- Folds a batch of `(url, outcome)` pairs into the `Map`, in order, with
`mapSet`; this is the `batch.forEach((url, index) => results.set(...))`
loop of one window. -/
def insertAll (m : List (String × RedirectResult))
    (ps : List (String × RedirectResult)) : List (String × RedirectResult) :=
  ps.foldl (fun acc p => mapSet acc p.1 p.2) m

/-- Embedding of `followRedirectsBatch` (redirectFollower.ts, lines 71-90):
the url list is cut into consecutive windows of `maxConcurrent`, every url
occurrence of a window is probed (`batch.map((url) => followRedirects(...))`)
and the outcomes are written into the insertion-ordered map.  The probe is
the pure oracle `resolve`. -/
def followRedirectsBatch (resolve : String → RedirectResult)
    (urls : List String) (maxConcurrent : Nat) :
    List (String × RedirectResult) :=
  (windows maxConcurrent urls).foldl
    (fun m w => insertAll m (w.map (fun u => (u, resolve u)))) []

/-- The sequence of network probes `followRedirectsBatch` issues, in order:
one probe per url occurrence of every window. -/
def batchProbes (urls : List String) (maxConcurrent : Nat) : List String :=
  (windows maxConcurrent urls).foldl (fun t w => t ++ w) []

/-- Keys of the modelled `Map`, in insertion order. -/
def keysOf (m : List (String × RedirectResult)) : List String :=
  m.map Prod.fst

/-! ## Pattern matcher (linkExtractor.ts, `matchesPattern`) -/

/-- ECMAScript line terminators: the regex dot of the compiled pattern
matches every code unit except these four. -/
def isLineTerminator (c : Char) : Bool :=
  c = '\n' || c = '\r' || c = '\u2028' || c = '\u2029'

/-- Matching of the `.*` regex atom the source substitutes for `*`: skip
zero or more non-line-terminator characters, then hand the rest of the
string to the continuation `next` (the matcher of the remaining pattern). -/
def starMatch (next : List Char → Bool) : List Char → Bool
  | [] => next []
  | u :: us => next (u :: us) || (!isLineTerminator u && starMatch next us)

/-- Semantics of the anchored regex built by `matchesPattern`
(linkExtractor.ts, lines 23-32): the pattern has every regex metacharacter
except `*` escaped, so every non-`*` character is a literal atom, and each
`*` becomes `.*`; `^`/`$` anchor the match to the whole string. -/
def globMatch : List Char → List Char → Bool
  | [], us => us.isEmpty
  | p :: ps, us =>
    if p = '*' then starMatch (globMatch ps) us
    else
      match us with
      | [] => false
      | u :: us' => p == u && globMatch ps us'

/-- Embedding of `matchesPattern(url, pattern)`:
`new RegExp("^" + compiled + "$").test(url)`. -/
def matchesPattern (url : String) (pattern : String) : Bool :=
  globMatch pattern.data url.data

/-- Declarative glob semantics of the compiled regex: literal characters
match themselves and each `*` matches an arbitrary (possibly empty)
substring free of line terminators, anchored at both ends. -/
inductive GlobSpec : List Char → List Char → Prop
  | nil : GlobSpec [] []
  | lit (c : Char) (ps us : List Char) : c ≠ '*' → GlobSpec ps us →
      GlobSpec (c :: ps) (c :: us)
  | star (w ps us : List Char) : (∀ c ∈ w, isLineTerminator c = false) →
      GlobSpec ps us → GlobSpec ('*' :: ps) (w ++ us)

/-- The pattern semantics the specification claims, written from the spec
words: identical to `GlobSpec` except that `*` matches any substring
whatsoever, with no restriction at all on its characters. -/
inductive GlobAny : List Char → List Char → Prop
  | nil : GlobAny [] []
  | lit (c : Char) (ps us : List Char) : c ≠ '*' → GlobAny ps us →
      GlobAny (c :: ps) (c :: us)
  | star (w ps us : List Char) : GlobAny ps us → GlobAny ('*' :: ps) (w ++ us)

/-! ## Structural link extractor (linkExtractor.ts, `extractLinks`) -/

/-- Mirrors the exported `JobEmailSource` interface. -/
structure JobEmailSource where
  emailSender : String
  jobLinkPatterns : List String
  followJobLink : Bool
  linkSelector : String
  linkTextExclusions : List String
deriving Repr, DecidableEq

/-- Mirrors the exported `ExtractedLink` interface. -/
structure ExtractedLink where
  url : String
  text : String
deriving Repr, DecidableEq

/-- One element node produced by the xpath query: its `href` attribute
(`none` models `getAttribute` returning null) and its text content. -/
structure DomNode where
  href : Option String
  textContent : String
deriving Repr, DecidableEq

/-- ASCII model of `String.prototype.toLowerCase()`, applied character by
character; the exclusion strings and anchor texts of the repository
configuration are ASCII. -/
def lowerStr (s : String) : String :=
  ⟨s.data.map Char.toLower⟩

/-- Substring test on character lists, the model of
`String.prototype.includes`. -/
def containsSub (needle : List Char) : List Char → Bool
  | [] => needle.isEmpty
  | c :: t => needle.isPrefixOf (c :: t) || containsSub needle t

/-- Model of `s.includes(sub)`. -/
def strIncludes (s : String) (sub : String) : Bool :=
  containsSub sub.data s.data

/-- Model of `String.prototype.trim()`: strip whitespace from both ends. -/
def trimStr (s : String) : String :=
  ⟨((s.data.dropWhile Char.isWhitespace).reverse.dropWhile
      Char.isWhitespace).reverse⟩

/-- Embedding of the per-node filter loop of `extractLinks`
(linkExtractor.ts, lines 106-143), applied to the node sequence the xpath
query returned.  A node whose `href` is null or the empty string is
skipped (`if (!href) continue` tests JS falsiness, so an empty attribute
value is skipped too); a node whose lowercased trimmed text contains a
lowercased exclusion entry is skipped; a node whose url matches no
pattern is skipped; the survivors are returned in document order. -/
def extractLinks (nodes : List DomNode) (source : JobEmailSource) :
    List ExtractedLink :=
  nodes.filterMap (fun node =>
    match node.href with
    | none => none
    | some href =>
      if href = "" then none
      else
        let text := trimStr node.textContent
        if source.linkTextExclusions.any
            (fun exclusion => strIncludes (lowerStr text) (lowerStr exclusion))
        then none
        else if source.jobLinkPatterns.any
            (fun pattern => matchesPattern href pattern)
        then some { url := href, text := text }
        else none)

/-- The keep-predicate the specification describes for `extractLinks`:
the node carries a usable link target, its text survives the
case-insensitive exclusion test and its url matches some pattern. -/
def keepNode (source : JobEmailSource) (n : DomNode) : Bool :=
  match n.href with
  | none => false
  | some href =>
    href ≠ "" &&
    !(source.linkTextExclusions.any (fun exclusion =>
        strIncludes (lowerStr (trimStr n.textContent)) (lowerStr exclusion))) &&
    source.jobLinkPatterns.any (fun pattern => matchesPattern href pattern)

/-! ## Model-assisted extractor (src/openai.ts) -/

/-- JSON values, the possible results of the platform `JSON.parse`;
numbers are modelled as integers, which is enough for truthiness. -/
inductive Json where
  | null : Json
  | bool (b : Bool) : Json
  | num (n : Int) : Json
  | str (s : String) : Json
  | arr (elems : List Json) : Json
  | obj (fields : List (String × Json)) : Json

/-- JS truthiness of a parsed JSON value (`parsed.jobs || []` keeps the
field value only when it is truthy). -/
def jsTruthy : Json → Bool
  | Json.null => false
  | Json.bool b => b
  | Json.num n => n != 0
  | Json.str s => s ≠ ""
  | Json.arr _ => true
  | Json.obj _ => true

/-- Embedding of
`const jobs = Array.isArray(parsed) ? parsed : parsed.jobs || []`
(openai.ts, line 227), executed inside the try block: an array is
returned as is; on an object the `jobs` field is returned when truthy and
the empty array otherwise (an absent field reads as undefined, which is
falsy); reading a property of `null` throws a TypeError, which the catch
block converts into the invalid-response error; every other primitive
yields undefined for the field access and hence the empty array. -/
def extractJobsFromParsed (parsed : Json) : Except String Json :=
  match parsed with
  | Json.arr xs => Except.ok (Json.arr xs)
  | Json.null => Except.error "Invalid JSON response from ChatGPT"
  | Json.obj fields =>
      Except.ok (match fields.lookup "jobs" with
        | some v => if jsTruthy v then v else Json.arr []
        | none => Json.arr [])
  | _ => Except.ok (Json.arr [])

/-- Embedding of the response handling of `extractJobListings`
(openai.ts, lines 218-232).  `resultText` is the model message content
(`none` models a null content); `jsonParse` is the platform JSON parser
as an oracle, `Except.error ()` meaning a parse exception.  A null or
empty content raises the no-response error before the try block; a parse
exception raises the invalid-response error; otherwise the parsed value
goes through `extractJobsFromParsed`. -/
def handleModelResponse (jsonParse : String → Except Unit Json)
    (resultText : Option String) : Except String Json :=
  match resultText with
  | none => Except.error "No response from ChatGPT"
  | some s =>
    if s = "" then Except.error "No response from ChatGPT"
    else
      match jsonParse s with
      | Except.error _ => Except.error "Invalid JSON response from ChatGPT"
      | Except.ok parsed => extractJobsFromParsed parsed

/-- Model token limits table (openai.ts, lines 5-10). -/
def MODEL_TOKEN_LIMITS : List (String × Nat) :=
  [("gpt-5", 400000), ("gpt-5-mini", 400000),
   ("gpt-5-nano", 250000), ("gpt-5-pro", 400000)]

/-- Reserve for prompt overhead and response (openai.ts, line 13). -/
def RESERVED_TOKENS : Nat := 10000

/-- Embedding of `getModelTokenLimit` (openai.ts, lines 51-53): table
lookup with a 128000 default for unknown models. -/
def getModelTokenLimit (model : String) : Nat :=
  (MODEL_TOKEN_LIMITS.lookup model).getD 128000

/-- Mirrors the `EmailData` interface of openai.ts. -/
structure EmailData where
  «from» : String
  subject : String
  date : String
  content : String
deriving Repr, DecidableEq

/-- Mirrors the `JobListing` interface. -/
structure JobListing where
  emailFrom : String
  emailSubject : String
  emailDate : String
  jobTitle : String
  jobLink : String
deriving Repr, DecidableEq

/-- The formatted representation of the i-th sampled email whose tokens
the batch-size loop counts (openai.ts, lines 76-85); `i` is zero-based
and printed one-based. -/
def emailText (i : Nat) (email : EmailData) : String :=
  "\n=== EMAIL " ++ toString (i + 1) ++ " ===\nFrom: " ++ email.«from» ++
  "\nSubject: " ++ email.subject ++ "\nDate: " ++ email.date ++ "\n\n" ++
  email.content ++ "\n\n=== END EMAIL " ++ toString (i + 1) ++ " ===\n"

/-- The fixed instructional wrapper whose token count is the prompt
overhead (openai.ts, lines 90-111). -/
def promptTemplate : String :=
  "You are analyzing job advertisement emails. Extract ALL job listings from the emails below.\n\nFor each job listing found, extract:\n1. Job title\n2. Link/URL to the job posting\n\nReturn your response as a JSON array. Each element should have:\n- emailFrom: the email sender\x27s address\n- emailSubject: the email subject line\n- emailDate: the email date\n- jobTitle: the job title\n- jobLink: the URL to apply or view the job\n\nIf an email contains multiple job listings, create separate entries for each job.\nOnly include actual job postings with valid URLs - ignore promotional content without specific jobs.\n\nEMAILS TO ANALYZE:\n\nReturn ONLY the JSON array, no other text."

/-- Total token count of the sample, the first `min 5 n` emails, each
formatted by `emailText` (the loop of openai.ts, lines 69-87).  The token
counter `tc` is the tiktoken oracle with its character-count fallback. -/
def sampleTokens (tc : String → Nat) (emails : List EmailData) : Nat :=
  (((emails.take 5).enum).map (fun p => tc (emailText p.1 p.2))).sum

/-- Embedding of `calculateOptimalBatchSize` (openai.ts, lines 58-135).
An empty list short-circuits to `maxBatchSize`.  Otherwise the code
computes `avg = totalTokens / sampleSize` and
`calculated = floor((available - overhead) / avg)` in JS float
arithmetic; the embedding computes the same floor exactly as
`fdiv ((available - overhead) * sampleSize) totalTokens`.  The oracle
`tc` never returns 0 on the nonempty sampled texts in the real program,
so `totalTokens` is positive and the floor is well defined. -/
def calculateOptimalBatchSize (tc : String → Nat) (emails : List EmailData)
    (model : String) (maxBatchSize : Int) : Int :=
  if emails.length = 0 then maxBatchSize
  else
    let modelLimit : Int := getModelTokenLimit model
    let availableTokens : Int := modelLimit - (RESERVED_TOKENS : Int)
    let sampleSize : Int := ((min 5 emails.length : Nat) : Int)
    let totalTokens : Int := ((sampleTokens tc emails : Nat) : Int)
    let promptOverhead : Int := ((tc promptTemplate : Nat) : Int)
    let calculatedBatchSize : Int :=
      Int.fdiv ((availableTokens - promptOverhead) * sampleSize) totalTokens
    max 1 (min calculatedBatchSize maxBatchSize)

/-! ## Configuration validation and the structural run (third index.ts
variant, `loadConfig` and `processJobEmails`) -/

/-- The data the abort path prints before `process.exit(1)`: the sender
of the offending policy and its selector (the SelectorError of the
specification). -/
structure SelectorError where
  sender : String
  selector : String
deriving Repr, DecidableEq

/-- The configuration of the structural variant. -/
structure StructuralConfig where
  jobEmailSources : List JobEmailSource
  delayBetweenRequests : Nat
deriving Repr, DecidableEq

/-- Embedding of the selector validation loop of `loadConfig` (third
index.ts variant, lines 461-482): each policy selector is evaluated once
against a tiny test document; the xpath engine throws exactly on a
syntactically invalid selector, modelled by the oracle `isValidXPath`.
The first invalid selector aborts with its sender and selector. -/
def validateSelectors (isValidXPath : String → Bool) :
    List JobEmailSource → Except SelectorError Unit
  | [] => Except.ok ()
  | s :: rest =>
    if isValidXPath s.linkSelector then validateSelectors isValidXPath rest
    else Except.error { sender := s.emailSender, selector := s.linkSelector }

/-- Embedding of `loadConfig`: the parsed configuration is returned only
after every selector validated. -/
def loadConfig (isValidXPath : String → Bool) (config : StructuralConfig) :
    Except SelectorError StructuralConfig :=
  match validateSelectors isValidXPath config.jobEmailSources with
  | Except.error e => Except.error e
  | Except.ok _ => Except.ok config

/-- One fetched email of the structural run. -/
structure StructEmail where
  «from» : String
  subject : String
  date : String
  htmlContent : String
deriving Repr, DecidableEq

/-- `config.jobEmailSources.find((s) => from.includes(s.emailSender))`. -/
def findSource (sources : List JobEmailSource) (sender : String) :
    Option JobEmailSource :=
  sources.find? (fun s => strIncludes sender s.emailSender)

/-- Per-email processing of the structural run (third index.ts variant,
lines 642-694): extract the links of the matched policy from the nodes
the xpath oracle `selectNodes` returns for the selector and the html
(namespace stripping and permissive parsing happen inside the oracle),
then either follow redirects through the probe oracle `resolve`, keeping
only successful resolutions, or pass the original urls through. -/
def processEmail (resolve : String → RedirectResult)
    (selectNodes : String → String → List DomNode)
    (source : JobEmailSource) (em : StructEmail) : List JobListing :=
  let links := extractLinks (selectNodes source.linkSelector em.htmlContent) source
  if source.followJobLink then
    links.filterMap (fun link =>
      let result := resolve link.url
      if result.success then
        some { emailFrom := em.«from», emailSubject := em.subject,
               emailDate := em.date, jobTitle := link.text,
               jobLink := result.finalUrl }
      else none)
  else
    links.map (fun link =>
      { emailFrom := em.«from», emailSubject := em.subject,
        emailDate := em.date, jobTitle := link.text, jobLink := link.url })

/-- The structural run: configuration loading (with selector validation)
first, email processing only afterwards. -/
def runStructural (isValidXPath : String → Bool) (config : StructuralConfig)
    (resolve : String → RedirectResult)
    (selectNodes : String → String → List DomNode)
    (emails : List StructEmail) : Except SelectorError (List JobListing) :=
  match loadConfig isValidXPath config with
  | Except.error e => Except.error e
  | Except.ok cfg =>
      Except.ok (emails.foldl (fun acc em =>
        match findSource cfg.jobEmailSources em.«from» with
        | none => acc
        | some source => acc ++ processEmail resolve selectNodes source em) [])

/-! ## Concrete oracles used by witnesses and counterexamples -/

/-- The character-count fallback of `countTokens` (openai.ts, line 44):
`Math.ceil(text.length / 4)`. -/
def charFallbackTokens (s : String) : Nat :=
  (s.length + 3) / 4

/-- A JSON-parse oracle that behaves like the platform parser on the
two-character input consisting of an opening and a closing curly brace:
that input parses to the empty object; everything else is treated as a
parse failure. -/
def parseOnlyEmptyObj : String → Except Unit Json :=
  fun s => if s = "\x7b\x7d" then Except.ok (Json.obj []) else Except.error ()

/-! ## Redirect resolver theorems (claims C1 and C8) -/

/-- Claim C1, amended.  For every url, `followRedirects` returns
`succeeded = false` with `finalUrl` equal to the original url and a
human-readable `failureReason` exactly when the probe rejects, that is,
on timeout or network-level failure; a probe that completes returns
`succeeded = true` with `finalUrl` equal to the last location of the
redirect chain, regardless of the HTTP status, which is not inspected. -/
theorem followRedirects_resolution :
    ∀ (fetchOutcome : Except String FetchResponse) (url : String)
      (debugMode : Bool),
      (∀ e, fetchOutcome = Except.error e →
        followRedirects fetchOutcome url debugMode =
          { finalUrl := url, success := false, error := some e,
            redirectChain := none }) ∧
      (∀ resp, fetchOutcome = Except.ok resp →
        followRedirects fetchOutcome url debugMode =
          { finalUrl := resp.url, success := true, error := none,
            redirectChain :=
              if debugMode then some [url, resp.url] else none }) := by
  intro fetchOutcome url debugMode
  constructor
  · rintro e rfl
    rfl
  · rintro resp rfl
    rfl

/-- Witness for C1 at a concrete rejected probe. -/
theorem followRedirects_resolution_witness :
    followRedirects (Except.error "network timeout") "https://a.example/x"
        false =
      { finalUrl := "https://a.example/x", success := false,
        error := some "network timeout", redirectChain := none } :=
  (followRedirects_resolution (Except.error "network timeout")
      "https://a.example/x" false).1 "network timeout" rfl

/-- Counterexample to claim C1 as stated: a probe that completes with the
non-success status 404 still yields `succeeded = true`, because the
source never reads the status. -/
theorem followRedirects_ok_ignores_status :
    responseOk { url := "https://a.example/page", status := 404 } = false ∧
    (followRedirects
        (Except.ok { url := "https://a.example/page", status := 404 })
        "https://a.example/page" false).success = true :=
  ⟨rfl, rfl⟩

/-- Claim C8.  `followRedirects` is total: for every probe outcome, url
and debug flag it returns a `RedirectResult`, and whenever that result
reports failure its `finalUrl` is the input url and a failure reason is
present. -/
theorem followRedirects_total :
    ∀ (fetchOutcome : Except String FetchResponse) (url : String)
      (debugMode : Bool),
      ∃ r : RedirectResult, followRedirects fetchOutcome url debugMode = r ∧
        (r.success = false → r.finalUrl = url ∧ r.error.isSome = true) := by
  intro fetchOutcome url debugMode
  refine ⟨followRedirects fetchOutcome url debugMode, rfl, ?_⟩
  cases fetchOutcome with
  | ok resp =>
    intro h
    simp [followRedirects] at h
  | error e =>
    intro _
    exact ⟨rfl, rfl⟩

/-- Witness for C8 at a concrete rejected probe. -/
theorem followRedirects_total_witness :
    ∃ r : RedirectResult,
      followRedirects (Except.error "DNS failure") "https://b.example" true =
        r ∧ (r.success = false → r.finalUrl = "https://b.example" ∧
          r.error.isSome = true) :=
  followRedirects_total (Except.error "DNS failure") "https://b.example" true

/-! ## Model-response parsing theorems (claim C2) -/

/-- Claim C2, amended.  A bare JSON array and an object wrapping the same
array under the `jobs` field parse to identical listing sequences; a null
or empty response content and a response that is not parseable JSON are
hard failures.  (As the counterexample shows, a parseable JSON value of
any other shape silently yields zero listings instead of an error.) -/
theorem modelResponse_shapes :
    (∀ xs : List Json,
      extractJobsFromParsed (Json.arr xs) = Except.ok (Json.arr xs) ∧
      extractJobsFromParsed (Json.obj [("jobs", Json.arr xs)]) =
        Except.ok (Json.arr xs)) ∧
    (∀ jsonParse : String → Except Unit Json,
      handleModelResponse jsonParse none =
        Except.error "No response from ChatGPT" ∧
      handleModelResponse jsonParse (some "") =
        Except.error "No response from ChatGPT") ∧
    (∀ (jsonParse : String → Except Unit Json) (s : String),
      s ≠ "" → jsonParse s = Except.error () →
      handleModelResponse jsonParse (some s) =
        Except.error "Invalid JSON response from ChatGPT") := by
  refine ⟨fun xs => ⟨rfl, rfl⟩, fun jsonParse => ⟨rfl, rfl⟩, ?_⟩
  intro jsonParse s hs hparse
  simp only [handleModelResponse]
  rw [if_neg hs, hparse]

/-- Witness for C2 at a concrete unparseable response. -/
theorem modelResponse_shapes_witness :
    handleModelResponse (fun _ => Except.error ()) (some "not json") =
      Except.error "Invalid JSON response from ChatGPT" :=
  modelResponse_shapes.2.2 (fun _ => Except.error ()) "not json"
    (by decide) rfl

/-- Counterexample to claim C2 as stated: the response consisting of an
empty JSON object parses fine but is not of the expected structure, yet
the batch gets the empty listing sequence instead of a hard failure. -/
theorem modelResponse_missing_jobs_silent :
    handleModelResponse parseOnlyEmptyObj (some "\x7b\x7d") =
      Except.ok (Json.arr []) := rfl

/-! ## Batch planner theorems (claims C5 and C9) -/

/-- Claim C5.  The planner returns `maxBatchSize` on an empty email list;
on a nonempty list it returns
`max 1 (min (floor ((limit - reserved - overhead) / avg)) maxBatchSize)`
with the average taken over the first `min 5 n` formatted emails, the
floor computed here as an exact integer division; consequently the result
is at least 1 — even when one sampled email alone exceeds the available
tokens — and at most the ceiling whenever the ceiling is at least 1. -/
theorem calculateOptimalBatchSize_spec :
    ∀ (tc : String → Nat) (model : String) (maxBatchSize : Int)
      (emails : List EmailData),
      calculateOptimalBatchSize tc [] model maxBatchSize = maxBatchSize ∧
      (emails ≠ [] → 0 < sampleTokens tc emails →
        calculateOptimalBatchSize tc emails model maxBatchSize =
          max 1 (min
            (Int.fdiv
              (((getModelTokenLimit model : Int) - (RESERVED_TOKENS : Int) -
                  (tc promptTemplate : Int)) *
                ((min 5 emails.length : Nat) : Int))
              ((sampleTokens tc emails : Nat) : Int))
            maxBatchSize)) ∧
      (emails ≠ [] →
        1 ≤ calculateOptimalBatchSize tc emails model maxBatchSize ∧
        (1 ≤ maxBatchSize →
          calculateOptimalBatchSize tc emails model maxBatchSize ≤
            maxBatchSize)) := by
  intro tc model maxBatchSize emails
  refine ⟨by simp [calculateOptimalBatchSize], ?_, ?_⟩
  · intro hne _hT
    have hlen : ¬ emails.length = 0 := by
      simpa [List.length_eq_zero] using hne
    simp only [calculateOptimalBatchSize, if_neg hlen]
  · intro hne
    have hlen : ¬ emails.length = 0 := by
      simpa [List.length_eq_zero] using hne
    constructor
    · simp only [calculateOptimalBatchSize, if_neg hlen]
      exact le_max_left 1 _
    · intro hmax
      simp only [calculateOptimalBatchSize, if_neg hlen]
      exact max_le hmax (min_le_right _ _)

/-- Witness for C5 at a concrete one-email list with the fallback token
counter. -/
theorem calculateOptimalBatchSize_spec_witness :
    calculateOptimalBatchSize charFallbackTokens
        [{ «from» := "a@b.example", subject := "Jobs", date := "Mon",
           content := "hello" }] "gpt-5-nano" 20 =
      max 1 (min
        (Int.fdiv
          (((getModelTokenLimit "gpt-5-nano" : Int) - (RESERVED_TOKENS : Int) -
              (charFallbackTokens promptTemplate : Int)) *
            ((min 5
                ([{ «from» := "a@b.example", subject := "Jobs", date := "Mon",
                    content := "hello" }] : List EmailData).length : Nat) :
              Int))
          ((sampleTokens charFallbackTokens
              [{ «from» := "a@b.example", subject := "Jobs", date := "Mon",
                 content := "hello" }] : Nat) : Int))
        20) :=
  (calculateOptimalBatchSize_spec charFallbackTokens "gpt-5-nano" 20
      [{ «from» := "a@b.example", subject := "Jobs", date := "Mon",
         content := "hello" }]).2.1 (by decide) (by decide)

/-- Claim C9.  The planned batch size depends only on the first five
emails: two lists of length at least five that agree on their first five
elements get the same batch size for the same token counter, model and
ceiling. -/
theorem batchSize_depends_on_first_five :
    ∀ (tc : String → Nat) (model : String) (maxBatchSize : Int)
      (emails₁ emails₂ : List EmailData),
      5 ≤ emails₁.length → 5 ≤ emails₂.length →
      emails₁.take 5 = emails₂.take 5 →
      calculateOptimalBatchSize tc emails₁ model maxBatchSize =
        calculateOptimalBatchSize tc emails₂ model maxBatchSize := by
  intro tc model maxBatchSize emails₁ emails₂ h₁ h₂ hpre
  have hl₁ : ¬ emails₁.length = 0 := by omega
  have hl₂ : ¬ emails₂.length = 0 := by omega
  have hsample : sampleTokens tc emails₁ = sampleTokens tc emails₂ := by
    unfold sampleTokens
    rw [hpre]
  have hmin : min 5 emails₁.length = min 5 emails₂.length := by omega
  simp only [calculateOptimalBatchSize, if_neg hl₁, if_neg hl₂, hsample, hmin]

/-- Witness for C9: a five-email list and its six-email extension plan
the same batch size. -/
theorem batchSize_depends_on_first_five_witness :
    calculateOptimalBatchSize charFallbackTokens
        [⟨"a1@x", "s1", "d1", "c1"⟩, ⟨"a2@x", "s2", "d2", "c2"⟩,
         ⟨"a3@x", "s3", "d3", "c3"⟩, ⟨"a4@x", "s4", "d4", "c4"⟩,
         ⟨"a5@x", "s5", "d5", "c5"⟩] "gpt-5" 20 =
      calculateOptimalBatchSize charFallbackTokens
        [⟨"a1@x", "s1", "d1", "c1"⟩, ⟨"a2@x", "s2", "d2", "c2"⟩,
         ⟨"a3@x", "s3", "d3", "c3"⟩, ⟨"a4@x", "s4", "d4", "c4"⟩,
         ⟨"a5@x", "s5", "d5", "c5"⟩, ⟨"a6@x", "s6", "d6", "c6"⟩] "gpt-5"
        20 :=
  batchSize_depends_on_first_five charFallbackTokens "gpt-5" 20 _ _
    (by decide) (by decide) rfl

/-! ## Pattern matcher theorems (claim C6) -/

/-- Completed star steps: when the tail matcher accepts `us` and `w` is
free of line terminators, the star matcher accepts `w ++ us`. -/
theorem starMatch_of (f : List Char → Bool) (w us : List Char)
    (hw : ∀ c ∈ w, isLineTerminator c = false) (hf : f us = true) :
    starMatch f (w ++ us) = true := by
  induction w with
  | nil =>
    cases us with
    | nil => simpa [starMatch] using hf
    | cons u us' => simp [starMatch, hf]
  | cons c w' ih =>
    have hc : isLineTerminator c = false := hw c (by simp)
    have hrest : starMatch f (w' ++ us) = true :=
      ih (fun d hd => hw d (by simp [hd]))
    simp [starMatch, hc, hrest]

/-- Inversion of the star matcher: an accepted string splits into a
line-terminator-free prefix eaten by the star and a suffix accepted by
the tail matcher. -/
theorem starMatch_elim (f : List Char → Bool) :
    ∀ us, starMatch f us = true →
      ∃ w us', us = w ++ us' ∧ (∀ c ∈ w, isLineTerminator c = false) ∧
        f us' = true := by
  intro us
  induction us with
  | nil =>
    intro h
    exact ⟨[], [], rfl, by simp, by simpa [starMatch] using h⟩
  | cons u us' ih =>
    intro h
    simp only [starMatch, Bool.or_eq_true, Bool.and_eq_true,
      Bool.not_eq_true'] at h
    rcases h with h | ⟨hlt, h⟩
    · exact ⟨[], u :: us', rfl, by simp, h⟩
    · rcases ih h with ⟨w, us'', heq, hw, hf⟩
      refine ⟨u :: w, us'', by simp [heq], ?_, hf⟩
      intro c hc
      rcases List.mem_cons.mp hc with rfl | hc
      · exact hlt
      · exact hw c hc

/-- Soundness of the matcher against the declarative glob semantics. -/
theorem globMatch_spec_fwd : ∀ ps us, globMatch ps us = true →
    GlobSpec ps us := by
  intro ps
  induction ps with
  | nil =>
    intro us h
    cases us with
    | nil => exact GlobSpec.nil
    | cons u us' => simp [globMatch] at h
  | cons p ps ih =>
    intro us h
    by_cases hp : p = '*'
    · subst hp
      simp only [globMatch, if_pos rfl] at h
      rcases starMatch_elim (globMatch ps) us h with ⟨w, us', rfl, hw, hf⟩
      exact GlobSpec.star w ps us' hw (ih us' hf)
    · cases us with
      | nil => simp [globMatch, hp] at h
      | cons u us' =>
        simp only [globMatch, if_neg hp, Bool.and_eq_true, beq_iff_eq] at h
        rcases h with ⟨rfl, h⟩
        exact GlobSpec.lit p ps us' hp (ih us' h)

/-- Completeness of the matcher against the declarative glob semantics. -/
theorem globMatch_spec_bwd : ∀ ps us, GlobSpec ps us →
    globMatch ps us = true := by
  intro ps us h
  induction h with
  | nil => rfl
  | lit c ps us hc _ ih => simp [globMatch, hc, ih]
  | star w ps us hw _ ih =>
    simp only [globMatch, if_pos rfl]
    exact starMatch_of (globMatch ps) w us hw ih

/-- Prefixes without a star prepend to both sides of a spec match. -/
theorem globAny_lit_prefix (pre : List Char) (hpre : '*' ∉ pre)
    {ps us : List Char} (h : GlobAny ps us) :
    GlobAny (pre ++ ps) (pre ++ us) := by
  induction pre with
  | nil => simpa using h
  | cons c pre' ih =>
    have hc : c ≠ '*' := fun hc => hpre (by simp [hc])
    exact GlobAny.lit c _ _ hc (ih (fun hm => hpre (List.mem_cons_of_mem c hm)))

/-- Claim C6, amended.  `matchesPattern` holds exactly when the whole
url, anchored at both ends, matches the pattern with every `*` standing
for an arbitrary substring free of ECMAScript line terminators and every
other character, regex metacharacters included, standing for itself; in
particular the two concrete examples of the specification hold. -/
theorem matchesPattern_glob_semantics :
    (∀ url pattern : String,
      matchesPattern url pattern = true ↔ GlobSpec pattern.data url.data) ∧
    matchesPattern "https://a.com/x/y" "https://a.com/*" = true ∧
    matchesPattern "https://a.com" "https://b.com/*" = false :=
  ⟨fun _url _pattern =>
    ⟨globMatch_spec_fwd _ _, globMatch_spec_bwd _ _⟩,
   by decide, by decide⟩

/-- Counterexample to claim C6 as stated: a url containing a newline is
matched by the star of the specification semantics but rejected by the
compiled regex, whose dot never matches a line terminator. -/
theorem matchesPattern_newline_not_matched :
    matchesPattern "https://a.com/x\ny" "https://a.com/*" = false ∧
    GlobAny (String.data "https://a.com/*")
      (String.data "https://a.com/x\ny") := by
  constructor
  · decide
  · have h1 : String.data "https://a.com/*" =
        String.data "https://a.com/" ++ ['*'] := by decide
    have h2 : String.data "https://a.com/x\ny" =
        String.data "https://a.com/" ++ ['x', '\n', 'y'] := by decide
    rw [h1, h2]
    exact globAny_lit_prefix (String.data "https://a.com/") (by decide)
      (GlobAny.star ['x', '\n', 'y'] [] [] GlobAny.nil)

/-! ## Redirect batch theorems (claim C3) -/

/-- Joining the windows gives back the original list. -/
theorem windows_flatten {α : Type} (k : Nat) (hk : 0 < k) :
    ∀ xs : List α, (windows k xs).flatten = xs := by
  have H : ∀ (n : Nat) (xs : List α), xs.length ≤ n →
      (windows k xs).flatten = xs := by
    intro n
    induction n with
    | zero =>
      intro xs hx
      have hxs : xs = [] := List.length_eq_zero.mp (Nat.le_zero.mp hx)
      subst hxs
      simp [windows]
    | succ n ih =>
      intro xs hx
      cases xs with
      | nil => simp [windows]
      | cons x xs' =>
        have hk' : ¬ k = 0 := by omega
        simp only [windows, if_neg hk', List.flatten_cons]
        rw [ih ((x :: xs').drop k)
          (by simp only [List.length_drop, List.length_cons]
              simp only [List.length_cons] at hx
              omega)]
        exact List.take_append_drop k (x :: xs')
  exact fun xs => H xs.length xs le_rfl

/-- Every window is nonempty and no longer than the window size. -/
theorem windows_sizes {α : Type} (k : Nat) (hk : 0 < k) :
    ∀ xs : List α, ∀ w ∈ windows k xs, w ≠ [] ∧ w.length ≤ k := by
  have H : ∀ (n : Nat) (xs : List α), xs.length ≤ n →
      ∀ w ∈ windows k xs, w ≠ [] ∧ w.length ≤ k := by
    intro n
    induction n with
    | zero =>
      intro xs hx w hw
      have hxs : xs = [] := List.length_eq_zero.mp (Nat.le_zero.mp hx)
      subst hxs
      simp [windows] at hw
    | succ n ih =>
      intro xs hx w hw
      cases xs with
      | nil => simp [windows] at hw
      | cons x xs' =>
        have hk' : ¬ k = 0 := by omega
        simp only [windows, if_neg hk', List.mem_cons] at hw
        rcases hw with rfl | hw
        · constructor
          · obtain ⟨m, rfl⟩ : ∃ m, k = m + 1 := ⟨k - 1, by omega⟩
            simp [List.take_cons]
          · simp only [List.length_take]
            exact Nat.min_le_left _ _
        · exact ih ((x :: xs').drop k)
            (by simp only [List.length_drop, List.length_cons]
                simp only [List.length_cons] at hx
                omega) w hw
  exact fun xs => H xs.length xs le_rfl

/-- Every window except possibly the last has exactly the window size. -/
theorem windows_dropLast_sizes {α : Type} (k : Nat) (hk : 0 < k) :
    ∀ xs : List α, ∀ w ∈ (windows k xs).dropLast, w.length = k := by
  have H : ∀ (n : Nat) (xs : List α), xs.length ≤ n →
      ∀ w ∈ (windows k xs).dropLast, w.length = k := by
    intro n
    induction n with
    | zero =>
      intro xs hx w hw
      have hxs : xs = [] := List.length_eq_zero.mp (Nat.le_zero.mp hx)
      subst hxs
      simp [windows] at hw
    | succ n ih =>
      intro xs hx w hw
      cases xs with
      | nil => simp [windows] at hw
      | cons x xs' =>
        have hk' : ¬ k = 0 := by omega
        simp only [windows, if_neg hk'] at hw
        by_cases hrest : (x :: xs').drop k = []
        · rw [hrest] at hw
          simp [windows] at hw
        · have hlt : k < (x :: xs').length := by
            have := List.length_drop k (x :: xs')
            have hpos : 0 < ((x :: xs').drop k).length :=
              List.length_pos.mpr hrest
            omega
          have hwin : windows k ((x :: xs').drop k) ≠ [] := by
            cases hd : (x :: xs').drop k with
            | nil => exact absurd hd hrest
            | cons y ys => simp [windows, if_neg hk']
          rw [List.dropLast_cons_of_ne_nil hwin] at hw
          rcases List.mem_cons.mp hw with rfl | hw
          · simp only [List.length_take]
            omega
          · exact ih ((x :: xs').drop k)
              (by simp only [List.length_drop, List.length_cons]
                  simp only [List.length_cons] at hx
                  omega) w hw
  exact fun xs => H xs.length xs le_rfl

/-- Folding append over a list of lists from any accumulator is the
accumulator followed by the join. -/
theorem foldl_append_join (ws : List (List String)) :
    ∀ acc : List String, ws.foldl (fun t w => t ++ w) acc = acc ++ ws.flatten := by
  induction ws with
  | nil => intro acc; simp
  | cons w ws ih => intro acc; simp [ih]

/-- The probe key test of `mapSet` is membership among the map keys. -/
theorem any_key_iff (m : List (String × RedirectResult)) (k : String) :
    (m.any fun p => p.1 == k) = true ↔ k ∈ keysOf m := by
  simp [keysOf, List.any_eq_true, List.mem_map]

/-- Keys after a `mapSet`: unchanged on overwrite, extended on insert. -/
theorem keysOf_mapSet (m : List (String × RedirectResult)) (k : String)
    (v : RedirectResult) :
    keysOf (mapSet m k v) =
      if k ∈ keysOf m then keysOf m else keysOf m ++ [k] := by
  unfold mapSet
  by_cases h : (m.any fun p => p.1 == k) = true
  · rw [if_pos h, if_pos ((any_key_iff m k).mp h)]
    unfold keysOf
    rw [List.map_map]
    apply List.map_congr_left
    intro p _hp
    by_cases hpk : (p.1 == k) = true
    · simp only [Function.comp_apply, if_pos hpk]
      exact (beq_iff_eq.mp hpk).symm
    · simp only [Function.comp_apply, if_neg hpk]
  · rw [if_neg h, if_neg (fun hk => h ((any_key_iff m k).mpr hk))]
    simp [keysOf]

/-- Membership among the keys after a `mapSet`. -/
theorem mem_keysOf_mapSet (m : List (String × RedirectResult)) (k : String)
    (v : RedirectResult) (u : String) :
    u ∈ keysOf (mapSet m k v) ↔ u ∈ keysOf m ∨ u = k := by
  rw [keysOf_mapSet]
  by_cases h : k ∈ keysOf m
  · rw [if_pos h]
    constructor
    · exact Or.inl
    · rintro (h' | rfl)
      · exact h'
      · exact h
  · rw [if_neg h]
    simp [List.mem_append]

/-- `mapSet` preserves distinctness of the keys. -/
theorem nodup_keysOf_mapSet (m : List (String × RedirectResult)) (k : String)
    (v : RedirectResult) (h : (keysOf m).Nodup) :
    (keysOf (mapSet m k v)).Nodup := by
  rw [keysOf_mapSet]
  by_cases hk : k ∈ keysOf m
  · rwa [if_pos hk]
  · rw [if_neg hk]
    simp [List.nodup_append, h, hk]

/-- `insertAll` over a concatenation is sequential insertion. -/
theorem insertAll_append (m a b) :
    insertAll m (a ++ b) = insertAll (insertAll m a) b := by
  simp [insertAll, List.foldl_append]

/-- Membership among the keys after an `insertAll`. -/
theorem mem_keysOf_insertAll (ps : List (String × RedirectResult)) :
    ∀ (m : List (String × RedirectResult)) (u : String),
      u ∈ keysOf (insertAll m ps) ↔ u ∈ keysOf m ∨ u ∈ ps.map Prod.fst := by
  induction ps with
  | nil =>
    intro m u
    simp [insertAll]
  | cons p ps ih =>
    intro m u
    have hstep : insertAll m (p :: ps) = insertAll (mapSet m p.1 p.2) ps := by
      simp [insertAll]
    rw [hstep, ih, mem_keysOf_mapSet]
    simp only [List.map_cons, List.mem_cons]
    tauto

/-- `insertAll` preserves distinctness of the keys. -/
theorem nodup_keysOf_insertAll (ps : List (String × RedirectResult)) :
    ∀ m : List (String × RedirectResult), (keysOf m).Nodup →
      (keysOf (insertAll m ps)).Nodup := by
  induction ps with
  | nil =>
    intro m h
    simpa [insertAll] using h
  | cons p ps ih =>
    intro m h
    have hstep : insertAll m (p :: ps) = insertAll (mapSet m p.1 p.2) ps := by
      simp [insertAll]
    rw [hstep]
    exact ih _ (nodup_keysOf_mapSet m p.1 p.2 h)

/-- The window-by-window fold of `followRedirectsBatch` equals one
insertion pass over the whole url list. -/
theorem followRedirectsBatch_eq_insertAll (resolve : String → RedirectResult)
    (k : Nat) (hk : 0 < k) (urls : List String) :
    followRedirectsBatch resolve urls k =
      insertAll [] (urls.map fun u => (u, resolve u)) := by
  have H : ∀ (ws : List (List String)) (m : List (String × RedirectResult)),
      ws.foldl (fun m w => insertAll m (w.map fun u => (u, resolve u))) m =
        insertAll m (ws.flatten.map fun u => (u, resolve u)) := by
    intro ws
    induction ws with
    | nil => intro m; simp [insertAll]
    | cons w ws ih =>
      intro m
      simp only [List.foldl_cons, List.flatten_cons, List.map_append,
        insertAll_append, ih]
  unfold followRedirectsBatch
  rw [H, windows_flatten k hk urls]

/-- Claim C3, amended.  For positive `maxConcurrent` the url list is
partitioned into consecutive nonempty windows of length `maxConcurrent`
(the last possibly shorter) whose concatenation is the original list;
the result maps exactly the distinct input urls, each appearing once as
a key; but one network probe is issued per url occurrence, so a
duplicated url is probed once per occurrence rather than once. -/
theorem followRedirectsBatch_spec :
    ∀ (resolve : String → RedirectResult) (urls : List String)
      (maxConcurrent : Nat), 0 < maxConcurrent →
      (windows maxConcurrent urls).flatten = urls ∧
      (∀ w ∈ windows maxConcurrent urls, w ≠ [] ∧ w.length ≤ maxConcurrent) ∧
      (∀ w ∈ (windows maxConcurrent urls).dropLast,
        w.length = maxConcurrent) ∧
      batchProbes urls maxConcurrent = urls ∧
      (keysOf (followRedirectsBatch resolve urls maxConcurrent)).Nodup ∧
      (∀ u, u ∈ keysOf (followRedirectsBatch resolve urls maxConcurrent) ↔
        u ∈ urls) := by
  intro resolve urls k hk
  refine ⟨windows_flatten k hk urls, windows_sizes k hk urls,
    windows_dropLast_sizes k hk urls, ?_, ?_, ?_⟩
  · unfold batchProbes
    rw [foldl_append_join, windows_flatten k hk urls]
    simp
  · rw [followRedirectsBatch_eq_insertAll resolve k hk urls]
    exact nodup_keysOf_insertAll _ [] (by simp [keysOf])
  · intro u
    rw [followRedirectsBatch_eq_insertAll resolve k hk urls,
      mem_keysOf_insertAll]
    simp [keysOf, List.map_map]

/-- Witness for C3 at five urls with window size 2. -/
theorem followRedirectsBatch_spec_witness :
    (windows 2 ["a", "b", "a", "c", "d"]).flatten = ["a", "b", "a", "c", "d"] :=
  (followRedirectsBatch_spec (fun u => ⟨u, true, none, none⟩)
    ["a", "b", "a", "c", "d"] 2 (by decide)).1

/-- Counterexample to claim C3 as stated: a url occurring twice in the
input is probed twice, not resolved by a single probe. -/
theorem duplicate_url_probed_per_occurrence :
    batchProbes ["https://dup.example/a", "https://dup.example/a"] 5 =
      ["https://dup.example/a", "https://dup.example/a"] ∧
    (batchProbes ["https://dup.example/a", "https://dup.example/a"] 5).count
      "https://dup.example/a" = 2 := by
  have h : batchProbes ["https://dup.example/a", "https://dup.example/a"] 5 =
      ["https://dup.example/a", "https://dup.example/a"] := by
    simp [batchProbes, windows]
  refine ⟨h, ?_⟩
  rw [h]
  decide

/-! ## Configuration validation theorems (claim C4) -/

/-- Some policy with an invalid selector makes `validateSelectors` abort,
reporting the sender and selector of an invalid policy. -/
theorem validateSelectors_error_of_invalid (isValidXPath : String → Bool) :
    ∀ sources : List JobEmailSource,
      (∃ s ∈ sources, isValidXPath s.linkSelector = false) →
      ∃ e : SelectorError,
        validateSelectors isValidXPath sources = Except.error e ∧
        isValidXPath e.selector = false ∧
        ∃ s ∈ sources, s.emailSender = e.sender ∧
          s.linkSelector = e.selector := by
  intro sources
  induction sources with
  | nil =>
    rintro ⟨s, hs, _⟩
    cases hs
  | cons s rest ih =>
    rintro ⟨t, ht, hinv⟩
    by_cases hv : isValidXPath s.linkSelector = true
    · have ht' : t ∈ rest := by
        rcases List.mem_cons.mp ht with rfl | h
        · rw [hv] at hinv
          cases hinv
        · exact h
      rcases ih ⟨t, ht', hinv⟩ with ⟨e, he, hinv', s', hs', hmatch⟩
      exact ⟨e, by simp [validateSelectors, hv, he], hinv', s',
        List.mem_cons_of_mem _ hs', hmatch⟩
    · have hv' : isValidXPath s.linkSelector = false :=
        Bool.eq_false_iff.mpr hv
      exact ⟨{ sender := s.emailSender, selector := s.linkSelector },
        by simp [validateSelectors, hv'], hv', s, List.mem_cons_self s rest,
        rfl, rfl⟩

/-- Claim C4.  A syntactically invalid `linkSelector` in any configured
policy makes the run abort during configuration validation, before any
email is processed, with an error naming an offending selector and its
sender: the result is the same `SelectorError` for every email list, so
no per-email failure and no silent empty extraction can occur. -/
theorem invalid_selector_aborts_run :
    ∀ (isValidXPath : String → Bool) (config : StructuralConfig)
      (resolve : String → RedirectResult)
      (selectNodes : String → String → List DomNode)
      (src : JobEmailSource),
      src ∈ config.jobEmailSources → isValidXPath src.linkSelector = false →
      ∃ e : SelectorError,
        (∀ emails : List StructEmail,
          runStructural isValidXPath config resolve selectNodes emails =
            Except.error e) ∧
        isValidXPath e.selector = false ∧
        ∃ s ∈ config.jobEmailSources, s.emailSender = e.sender ∧
          s.linkSelector = e.selector := by
  intro isValidXPath config resolve selectNodes src hmem hinv
  rcases validateSelectors_error_of_invalid isValidXPath
      config.jobEmailSources ⟨src, hmem, hinv⟩ with ⟨e, he, hinv', hs⟩
  refine ⟨e, ?_, hinv', hs⟩
  intro emails
  simp [runStructural, loadConfig, he]

/-- Witness for C4: a single policy with an invalid selector aborts the
run for the always-throwing xpath oracle. -/
theorem invalid_selector_aborts_run_witness :
    ∃ e : SelectorError,
      (∀ emails : List StructEmail,
        runStructural (fun _ => false)
          ⟨[⟨"jobs@example.com", [], false, "///bad", []⟩], 0⟩
          (fun u => ⟨u, true, none, none⟩)
          (fun _ _ => []) emails = Except.error e) ∧
      (fun _ : String => false) e.selector = false ∧
      ∃ s ∈ [(⟨"jobs@example.com", [], false, "///bad", []⟩ :
          JobEmailSource)],
        s.emailSender = e.sender ∧ s.linkSelector = e.selector :=
  invalid_selector_aborts_run (fun _ => false)
    ⟨[⟨"jobs@example.com", [], false, "///bad", []⟩], 0⟩
    (fun u => ⟨u, true, none, none⟩)
    (fun _ _ => [])
    ⟨"jobs@example.com", [], false, "///bad", []⟩
    (List.mem_cons_self _ _) rfl

/-! ## Structural extractor theorems (claims C7 and C10) -/

/-- A filterMap by a guarded some is the map over the filter. -/
theorem filterMap_if_eq_map_filter {α β : Type} (p : α → Bool) (g : α → β)
    (l : List α) :
    l.filterMap (fun a => if p a then some (g a) else none) =
      (l.filter p).map g := by
  induction l with
  | nil => rfl
  | cons a l ih =>
    by_cases h : p a = true <;>
      simp [List.filterMap_cons, List.filter_cons, h, ih]

/-- Claim C7, amended.  `extractLinks` returns, in document order,
exactly the selector-matched nodes carrying a nonempty link-target
attribute whose trimmed text survives the case-insensitive exclusion
test and whose url matches at least one pattern — a node without the
attribute, and likewise one whose attribute value is the empty string,
is skipped without error; on the three-anchor example of the
specification exactly one candidate is returned. -/
theorem extractLinks_characterization :
    (∀ (nodes : List DomNode) (source : JobEmailSource),
      extractLinks nodes source =
        (nodes.filter (fun n => keepNode source n)).map
          (fun n => { url := n.href.getD "", text := trimStr n.textContent })) ∧
    extractLinks
        [{ href := some "https://click.example.com/job1",
           textContent := "Software Engineer" },
         { href := some "https://click.example.com/bye",
           textContent := "UNSUBSCRIBE here" },
         { href := some "https://other.com/job",
           textContent := "Data Engineer" }]
        { emailSender := "jobs@example.com",
          jobLinkPatterns := ["https://click.example.com/*"],
          followJobLink := true, linkSelector := "//a",
          linkTextExclusions := ["unsubscribe"] } =
      [{ url := "https://click.example.com/job1",
         text := "Software Engineer" }] := by
  constructor
  · intro nodes source
    unfold extractLinks
    refine Eq.trans (List.filterMap_congr ?_)
      (filterMap_if_eq_map_filter (fun n => keepNode source n)
        (fun n => { url := n.href.getD "", text := trimStr n.textContent })
        nodes)
    intro n _
    cases hh : n.href with
    | none => simp [keepNode, hh]
    | some href =>
      by_cases h1 : href = ""
      · simp [keepNode, hh, h1]
      · by_cases h2 : (source.linkTextExclusions.any fun exclusion =>
            strIncludes (lowerStr (trimStr n.textContent))
              (lowerStr exclusion)) = true
        · simp [keepNode, hh, h1, h2]
        · by_cases h3 : (source.jobLinkPatterns.any fun pattern =>
              matchesPattern href pattern) = true
          · simp [keepNode, hh, h1, h2, h3]
          · simp [keepNode, hh, h1, h2, h3]
  · decide

/-- Counterexample to claim C7 as stated: a node whose link-target
attribute is present but empty is skipped even though its empty url
matches the pattern consisting of a single star and its text is not
excluded. -/
theorem extractLinks_empty_attr_skipped :
    extractLinks [{ href := some "", textContent := "Apply now" }]
        { emailSender := "jobs@example.com", jobLinkPatterns := ["*"],
          followJobLink := true, linkSelector := "//a",
          linkTextExclusions := [] } = [] ∧
    matchesPattern "" "*" = true ∧
    (some "" : Option String).isSome = true := by
  refine ⟨by decide, by decide, rfl⟩

/-- ASCII lowercasing is idempotent on characters. -/
theorem toLower_toLower (c : Char) :
    (Char.toLower c).toLower = Char.toLower c := by
  unfold Char.toLower
  by_cases h : c.toNat ≥ 65 ∧ c.toNat ≤ 90
  · rw [if_pos h]
    have hv : (c.toNat + 32).isValidChar := Or.inl (by omega)
    have ht : (Char.ofNat (c.toNat + 32)).toNat = c.toNat + 32 := by
      rw [Char.ofNat, dif_pos hv]
      simp [Char.ofNatAux, Char.toNat, UInt32.toNat]
    rw [if_neg (by rw [ht]; omega)]
  · rw [if_neg h, if_neg h]

/-- ASCII lowercasing is idempotent on strings. -/
theorem lowerStr_idem (s : String) : lowerStr (lowerStr s) = lowerStr s := by
  unfold lowerStr
  refine congrArg String.mk ?_
  show (s.data.map Char.toLower).map Char.toLower = s.data.map Char.toLower
  rw [List.map_map]
  exact List.map_congr_left (fun c _ => toLower_toLower c)

/-- Claim C10.  Text-exclusion filtering is case-insensitive in both
directions: replacing every exclusion entry by its lowercase form, as
the SourcePolicy data model assumes, changes nothing, because the source
lowercases both the anchor text and every exclusion entry before the
substring test. -/
theorem exclusion_case_insensitive :
    ∀ (nodes : List DomNode) (source : JobEmailSource),
      extractLinks nodes
        { source with
            linkTextExclusions := source.linkTextExclusions.map lowerStr } =
        extractLinks nodes source := by
  intro nodes source
  unfold extractLinks
  congr 1
  funext node
  cases node.href with
  | none => rfl
  | some href =>
    simp only [List.any_map, Function.comp_def, lowerStr_idem]

end JobMail
